import Mathlib

/-!
Shallow embedding of the `cneuromod_vg_utils` repository
(`src/cneuromod_vg_utils/replay.py` and `src/cneuromod_vg_utils/video.py`).

Pure data flow is translated into Lean functions; the stateful parts
(the replay generator, the MP4 exporter with its temporary files and
subprocess call) are modelled by explicit state passing over a small
world record plus an event trace.  Python exceptions are modelled with
`Except`.
-/

/-- Python scalar values as they appear in per-frame info mappings and in
the metadata fields of the record built by `reformat_info`. -/
inductive PyVal where
  | str (s : String)
  | int (n : Int)
  | bool (b : Bool)
  | none
deriving DecidableEq

/-- A value stored in the dictionary built by `reformat_info`: either a
scalar (possibly Python `None`) or a Python list.  The `actions` entry is
a list of strings, hence also a `seq` (of `PyVal.str`), so that Python's
`list.append` behaves uniformly. -/
inductive DVal where
  | val (v : PyVal)
  | seq (l : List PyVal)
deriving DecidableEq

/-- The Python exceptions that the code in `replay.py` can raise. -/
inductive PyErr where
  | indexError
  | keyError
  | attributeError
  | nameError
deriving DecidableEq

/-- Lookup in an insertion-ordered Python dictionary with string keys. -/
def dlookup {α : Type} : List (String × α) → String → Option α
  | [], _ => Option.none
  | (k, v) :: rest, k0 => if k = k0 then some v else dlookup rest k0

/-- Assignment `d[k] = v` in an insertion-ordered Python dictionary:
replace in place if the key exists, otherwise append at the end. -/
def dset {α : Type} : List (String × α) → String → α → List (String × α)
  | [], k0, v0 => [(k0, v0)]
  | (k, v) :: rest, k0, v0 =>
    if k = k0 then (k, v0) :: rest else (k, v) :: dset rest k0 v0

/-- Python list indexing `l[i]` (non-negative index): `IndexError` when out
of range. -/
def pyIndex {α : Type} (l : List α) (i : Nat) : Except PyErr α :=
  match l.get? i with
  | some x => Except.ok x
  | Option.none => Except.error PyErr.indexError

/-- `repetition_variables[key].append(value)`: `KeyError` when the key is
absent, `AttributeError` when the stored value is not a list. -/
def appendTo (rv : List (String × DVal)) (k : String) (v : PyVal) :
    Except PyErr (List (String × DVal)) :=
  match dlookup rv k with
  | Option.none => Except.error PyErr.keyError
  | some (DVal.val _) => Except.error PyErr.attributeError
  | some (DVal.seq l) => Except.ok (dset rv k (DVal.seq (l ++ [v])))

/-- Splitting a character list at every occurrence of `c`
(Python `str.split` with a one-character separator). -/
def splitOnChar (c : Char) : List Char → List (List Char)
  | [] => [[]]
  | x :: xs =>
    let r := splitOnChar c xs
    if x = c then [] :: r
    else
      match r with
      | [] => [[x]]
      | h :: t => (x :: h) :: t

/-- Splitting at the first occurrence of `c` only
(Python `str.split(c, 1)` when `c` occurs in the string). -/
def splitOnce (c : Char) : List Char → List Char × List Char
  | [] => ([], [])
  | x :: xs =>
    if x = c then ([], xs)
    else
      let r := splitOnce c xs
      (x :: r.1, r.2)

/-- Python `s.split(c)` over our model of strings. -/
def pySplit (s : String) (c : Char) : List String :=
  (splitOnChar c s.data).map String.mk

/-- Python `c in s` for a one-character needle. -/
def containsChar (s : String) (c : Char) : Bool := s.data.contains c

/-- `os.path.basename`: the part of the path after the last slash. -/
def basename (p : String) : String :=
  (pySplit p ('/')).getLastD p

/-- `None`-or-string metadata value (`entities_dict.get(...)`). -/
def optStr : Option String → PyVal
  | some s => PyVal.str s
  | Option.none => PyVal.none

/-- The filename tokenizer inside `reformat_info`: split the base name on
underscores, and for every token containing a hyphen split it once at the
first hyphen into a key-value pair, collected into a dictionary. -/
def parseEntities (filename : String) : List (String × String) :=
  (pySplit filename ('_')).foldl
    (fun d ent =>
      if containsChar ent ('-') then
        let kv := splitOnce ('-') ent.data
        dset d (String.mk kv.1) (String.mk kv.2)
      else d)
    []

/-- One iteration of `for key in frame_info.keys(): ...append(...)`. -/
def infoAppend (rv : List (String × DVal)) (kv : String × PyVal) :
    Except PyErr (List (String × DVal)) :=
  appendTo rv kv.1 kv.2

/-- One iteration of the button loop
(`repetition_variables[button].append(keys[frame_idx][button_idx])`,
`q.1` being the enumeration index of the button `q.2`). -/
def buttonAppend (keys : List (List Bool)) (i : Nat)
    (rv : List (String × DVal)) (q : Nat × String) :
    Except PyErr (List (String × DVal)) := do
  let row ← pyIndex keys i
  let b ← pyIndex row q.1
  appendTo rv q.2 (PyVal.bool b)

/-- The body of the per-frame loop of `reformat_info` for one frame
(`p.1` is the frame index, `p.2` the frame's info mapping): append every
info value to its sequence, then append `keys[frame_idx][button_idx]` to
every button's sequence. -/
def frameStep (keys : List (List Bool)) (actions : List String)
    (rv : List (String × DVal)) (p : Nat × List (String × PyVal)) :
    Except PyErr (List (String × DVal)) := do
  let rv1 ← p.2.foldlM infoAppend rv
  (actions.enum).foldlM (buttonAppend keys p.1) rv1

/-- The `repetition_variables` dict literal at the top of
`reformat_info`: the filename, the three filename-derived metadata fields
and the action list. -/
def metaRecord (bk2_fpath : String) (actions : List String) :
    List (String × DVal) :=
  let filename := basename bk2_fpath
  let entities_dict := parseEntities filename
  [(("filename"), DVal.val (PyVal.str bk2_fpath)),
   (("level"), DVal.val (optStr (dlookup entities_dict ("level")))),
   (("subject"), DVal.val (optStr (dlookup entities_dict ("sub")))),
   (("session"), DVal.val (optStr (dlookup entities_dict ("ses")))),
   (("actions"), DVal.seq (actions.map PyVal.str))]

/-- `reformat_info(info, keys, bk2_fpath, actions)` from `replay.py`:
build the metadata record from the filename, initialize one empty list per
first-frame info key and per action, then fill all lists frame by frame. -/
def reformat_info (info : List (List (String × PyVal))) (keys : List (List Bool))
    (bk2_fpath : String) (actions : List String) :
    Except PyErr (List (String × DVal)) := do
  let rv0 := metaRecord bk2_fpath actions
  let first ← pyIndex info 0
  let rv1 := first.foldl (fun rv kv => dset rv kv.1 (DVal.seq [])) rv0
  let rv2 := actions.foldl (fun rv b => dset rv b (DVal.seq [])) rv1
  (info.enum).foldlM (frameStep keys actions) rv2

/-- The tuple returned by one `emulator.step(keys)` call, together with
the successor emulator state. -/
structure StepOut (σ F : Type) where
  frame : F
  reward : Int
  terminate : Bool
  truncate : Bool
  info : List (String × PyVal)
  next : σ

/-- The emulator session: button names, button count, reset behaviour
(applied to the attached initial state), the step function and the state
snapshot accessor (`emulator.em.get_state()`). -/
structure Emulator (σ F : Type) where
  buttons : List String
  num_buttons : Nat
  reset : σ → σ
  step : σ → List Bool → StepOut σ F
  getState : σ → σ

/-- A loaded movie: player count, one key-lookup function per loggable
step (`movie.get_key(buttonIdx, playerIdx)` for the currently loaded
step), the recorded starting state and the embedded game name. -/
structure Movie (σ : Type) where
  players : Nat
  steps : List (Nat → Nat → Bool)
  state : σ
  game : String

/-- The `annotations` dictionary built for each yielded step. -/
structure Annotations where
  reward : Int
  done : Bool
  info : List (String × PyVal)
deriving DecidableEq

/-- One Replay Step Record as yielded by `replay_bk2`. -/
structure StepRecord (σ F : Type) where
  frame : F
  keys : List Bool
  annotations : Annotations
  truncate : Bool
  actions : List String
  state : σ
deriving DecidableEq

/-- The key vector collected for one step: for every player, one boolean
per emulator button, in button order (the nested `for p`, `for i` loop). -/
def stepKeys (players num_buttons : Nat) (getKey : Nat → Nat → Bool) : List Bool :=
  (List.range players).flatMap (fun p => (List.range num_buttons).map (fun i => getKey i p))

/-- The `while movie.step():` loop of `replay_bk2`, one record per
remaining loggable step, threading the emulator state. -/
def replayLoop {σ F : Type} (em : Emulator σ F) (players : Nat) (actions : List String) :
    σ → List (Nat → Nat → Bool) → List (StepRecord σ F)
  | _, [] => []
  | s, g :: rest =>
    let keys := stepKeys players em.num_buttons g
    let out := em.step s keys
    { frame := out.frame, keys := keys,
      annotations := { reward := out.reward, done := out.terminate, info := out.info },
      truncate := out.truncate, actions := actions,
      state := em.getState out.next } :: replayLoop em players actions out.next rest

/-- `replay_bk2`: attach the movie's recorded state, reset, optionally
consume one movie step without emitting a record, then yield one record
per remaining step. -/
def replay_bk2 {σ F : Type} (movie : Movie σ) (em : Emulator σ F)
    (skip_first_step : Bool) : List (StepRecord σ F) :=
  let actions := em.buttons
  let s0 := em.reset movie.state
  replayLoop em movie.players actions s0
    (if skip_first_step then movie.steps.drop 1 else movie.steps)

/-- Observable events of the generator body of `replay_bk2`: each yield,
and the two close calls placed after the loop. -/
inductive ReplayEvent (σ F : Type) where
  | yielded (r : StepRecord σ F)
  | closeEmulator
  | closeMovie
deriving DecidableEq

/-- The full execution trace of the generator body: all yields in order,
then `emulator.close()`, then `movie.close()` (the source has no
try/finally around the loop). -/
def replayTrace {σ F : Type} (movie : Movie σ) (em : Emulator σ F)
    (skip_first_step : Bool) : List (ReplayEvent σ F) :=
  (replay_bk2 movie em skip_first_step).map ReplayEvent.yielded ++
    [ReplayEvent.closeEmulator, ReplayEvent.closeMovie]

/-- Python generator semantics for a consumer that pulls `k` records and
then abandons the generator: exactly the code up to and including the
`k`-th yield has executed; pulling past the last yield runs the trailing
code (the close calls) as well. -/
def execUpToYield {σ F : Type} : Nat → List (ReplayEvent σ F) → List (ReplayEvent σ F)
  | _, [] => []
  | 0, _ :: _ => []
  | k + 1, ReplayEvent.yielded r :: rest => ReplayEvent.yielded r :: execUpToYield k rest
  | k + 1, ReplayEvent.closeEmulator :: rest => ReplayEvent.closeEmulator :: execUpToYield (k + 1) rest
  | k + 1, ReplayEvent.closeMovie :: rest => ReplayEvent.closeMovie :: execUpToYield (k + 1) rest

/-- The payload returned by `get_variables_from_replay`. -/
structure ReplayVars (σ F : Type) where
  repetition_variables : List (String × DVal)
  replay_info : List (List (String × PyVal))
  replay_frames : List F
  replay_states : List σ

/-- `get_variables_from_replay`: run the replay, collect the per-step
lists, and call `reformat_info`.  The local name `actions` is bound only
inside the loop body, so on an empty replay the call site
`reformat_info(..., actions)` raises `NameError`; the returned `Bool` is
whether the final-frame warning (`done` never set) fires. -/
def get_variables_from_replay {σ F : Type} (movie : Movie σ) (em : Emulator σ F)
    (bk2_fpath : String) (skip_first_step : Bool) :
    Except PyErr (ReplayVars σ F × Bool) :=
  let records := replay_bk2 movie em skip_first_step
  let replay_frames := records.map (fun r => r.frame)
  let replay_keys := records.map (fun r => r.keys)
  let replay_info := records.map (fun r => r.annotations.info)
  let replay_states := records.map (fun r => r.state)
  match records.getLast? with
  | Option.none => Except.error PyErr.nameError
  | some last =>
    match reformat_info replay_info replay_keys bk2_fpath last.actions with
    | Except.error e => Except.error e
    | Except.ok rv =>
      Except.ok (⟨rv, replay_info, replay_frames, replay_states⟩,
        !last.annotations.done)

/-- The outcome of the `subprocess.run(cmd, check=True, ...)` call in
`make_mp4`: the ffmpeg binary may be absent, or the process exits with
some status code. -/
inductive SubOutcome where
  | binaryMissing
  | exited (code : Nat)
deriving DecidableEq

/-- The Python exceptions relevant to `video.py`. -/
inductive VidErr where
  | fileNotFoundError
  | calledProcessError (code : Nat)
  | runtimeError (msg : String)
  | osError
deriving DecidableEq

/-- Observable events of one `make_mp4` call. -/
inductive VidEvent where
  | mkdtemp
  | writeTempVideo (numFrames fps : Nat)
  | logInfoCastAudio
  | writeWav (sample_rate : Nat)
  | runFfmpeg
  | replaceTempVideoToFinal
  | unlinkTempAudio
  | unlinkTempVideo
  | rmdirTempDir
deriving DecidableEq

/-- The filesystem facts `make_mp4` manipulates: existence of the
temporary directory, the two temporary files, and the final output file,
plus the event trace. -/
structure VidWorld where
  tempDirExists : Bool
  tempVideoExists : Bool
  tempAudioExists : Bool
  finalExists : Bool
  events : List VidEvent
deriving DecidableEq

/-- The world before a `make_mp4` call: nothing created yet. -/
def initialVidWorld : VidWorld :=
  { tempDirExists := false, tempVideoExists := false, tempAudioExists := false,
    finalExists := false, events := [] }

/-- State-and-exception computations over `VidWorld`. -/
def VidM (α : Type) : Type := VidWorld → Except VidErr α × VidWorld

/-- Pure value in `VidM`. -/
def vidPure {α : Type} (a : α) : VidM α := fun w => (Except.ok a, w)

/-- Sequencing in `VidM`: an exception aborts the rest. -/
def vidSeq {α β : Type} (m : VidM α) (f : α → VidM β) : VidM β := fun w =>
  match m w with
  | (Except.ok a, w1) => f a w1
  | (Except.error e, w1) => (Except.error e, w1)

/-- `raise e` in `VidM`. -/
def vidRaise {α : Type} (e : VidErr) : VidM α := fun w => (Except.error e, w)

/-- Record one event in the trace. -/
def logEvent (e : VidEvent) (w : VidWorld) : VidWorld :=
  { w with events := w.events ++ [e] }

/-- `tempfile.mkdtemp(...)`: the temporary directory now exists. -/
def mkdtempOp : VidM Unit := fun w =>
  (Except.ok (), logEvent VidEvent.mkdtemp { w with tempDirExists := true })

/-- The `skvideo.io.FFmpegWriter` block: all frames are written to the
temporary silent video file, which then exists. -/
def writeTempVideoOp (numFrames fps : Nat) : VidM Unit := fun w =>
  (Except.ok (),
    logEvent (VidEvent.writeTempVideo numFrames fps) { w with tempVideoExists := true })

/-- `logging.info("Casting audio to int16 before muxing")`. -/
def logInfoOp : VidM Unit := fun w =>
  (Except.ok (), logEvent VidEvent.logInfoCastAudio w)

/-- Modelled from the spec: `write_wav` is imported from `replay.py` but
defined nowhere in the repository; per the spec it writes the temporary
waveform file, so the temporary audio file exists afterwards. -/
def writeWavOp (sample_rate : Nat) : VidM Unit := fun w =>
  (Except.ok (),
    logEvent (VidEvent.writeWav sample_rate) { w with tempAudioExists := true })

/-- `temp_video.replace(final_path)`: move the temporary silent video to
the requested output path (`OSError` if the source is missing). -/
def replaceOp : VidM Unit := fun w =>
  if w.tempVideoExists then
    (Except.ok (),
      logEvent VidEvent.replaceTempVideoToFinal
        { w with tempVideoExists := false, finalExists := true })
  else (Except.error VidErr.osError, w)

/-- `os.rmdir(temp_dir)`: fails with `OSError` when the directory is
missing or still holds one of the temporary files. -/
def rmdirOp : VidM Unit := fun w =>
  if w.tempDirExists && !w.tempVideoExists && !w.tempAudioExists then
    (Except.ok (), logEvent VidEvent.rmdirTempDir { w with tempDirExists := false })
  else (Except.error VidErr.osError, w)

/-- `temp_audio.unlink(missing_ok=True)`. -/
def unlinkTempAudioOp : VidM Unit := fun w =>
  (Except.ok (), logEvent VidEvent.unlinkTempAudio { w with tempAudioExists := false })

/-- `temp_video.unlink(missing_ok=True)`. -/
def unlinkTempVideoOp : VidM Unit := fun w =>
  (Except.ok (), logEvent VidEvent.unlinkTempVideo { w with tempVideoExists := false })

/-- `subprocess.run(cmd, check=True, ...)`: `FileNotFoundError` when the
ffmpeg binary is absent; on exit code 0 the muxed output file exists; a
non-zero exit code raises `CalledProcessError`. -/
def runFfmpegOp (outcome : SubOutcome) : VidM Unit := fun w =>
  match outcome with
  | SubOutcome.binaryMissing => (Except.error VidErr.fileNotFoundError, logEvent VidEvent.runFfmpeg w)
  | SubOutcome.exited 0 => (Except.ok (), logEvent VidEvent.runFfmpeg { w with finalExists := true })
  | SubOutcome.exited (c + 1) =>
    (Except.error (VidErr.calledProcessError (c + 1)), logEvent VidEvent.runFfmpeg w)

/-- `try: ... except FileNotFoundError as exc: <handler>`. -/
def catchFileNotFound {α : Type} (body handler : VidM α) : VidM α := fun w =>
  match body w with
  | (Except.error VidErr.fileNotFoundError, w1) => handler w1
  | r => r

/-- `try: <body> finally: <fin>`: the finalizer runs on both the normal
and the exceptional path; an exception escaping the finalizer replaces
the pending result. -/
def withFinally {α : Type} (body : VidM α) (fin : VidM Unit) : VidM α := fun w =>
  match body w with
  | (Except.ok a, w1) =>
    (match fin w1 with
     | (Except.ok _, w2) => (Except.ok a, w2)
     | (Except.error e, w2) => (Except.error e, w2))
  | (Except.error e, w1) =>
    (match fin w1 with
     | (Except.ok _, w2) => (Except.error e, w2)
     | (Except.error e2, w2) => (Except.error e2, w2))

/-- `try: ... except OSError: pass` around the cleanup block. -/
def ignoreOSError (body : VidM Unit) : VidM Unit := fun w =>
  match body w with
  | (Except.error VidErr.osError, w1) => (Except.ok (), w1)
  | r => r

/-- The audio argument of `make_mp4`; only its dtype is observable here
(`audio.dtype != np.int16` decides the cast branch). -/
structure AudioArray where
  isInt16 : Bool
deriving DecidableEq

/-- `audio.astype(np.int16)`. -/
def astypeInt16 (a : AudioArray) : AudioArray := { a with isInt16 := true }

/-- `make_mp4` from `video.py`: write the silent video into a fresh
temporary directory; without a full audio/sample-rate pair, move it to
the final path and remove the directory; otherwise cast the audio if
needed, write the waveform file, and run ffmpeg inside
try/except-FileNotFoundError/finally with the cleanup block. -/
def make_mp4 {F : Type} (selected_frames : List F) (movie_fname : String)
    (audio : Option AudioArray) (sample_rate : Option Nat) (fps : Nat)
    (ffmpeg : SubOutcome) : VidM Unit :=
  vidSeq mkdtempOp (fun _ =>
  vidSeq (writeTempVideoOp selected_frames.length fps) (fun _ =>
    match audio, sample_rate with
    | some a, some sr =>
      vidSeq (if a.isInt16 then vidPure () else logInfoOp) (fun _ =>
      vidSeq (writeWavOp sr) (fun _ =>
      withFinally
        (catchFileNotFound (runFfmpegOp ffmpeg)
          (vidRaise (VidErr.runtimeError ("ffmpeg binary is required to mux audio into MP4"))))
        (ignoreOSError
          (vidSeq unlinkTempAudioOp (fun _ =>
           vidSeq unlinkTempVideoOp (fun _ => rmdirOp))))))
    | _, _ =>
      vidSeq replaceOp (fun _ => rmdirOp)))

/-- Observable events of `make_gif` / `make_webp`. -/
inductive MediaEvent where
  | warnNoFrames (movie_fname : String)
  | saveFile (movie_fname : String)
deriving DecidableEq

/-- `make_gif`: build the frame-image list (the per-frame
`Image.fromarray` conversion is modelled as the identity), warn and
return without writing when it is empty, otherwise save the animation. -/
def make_gif {F : Type} (selected_frames : List F) (movie_fname : String) :
    List MediaEvent :=
  let frame_list := selected_frames
  if frame_list.isEmpty then [MediaEvent.warnNoFrames movie_fname]
  else [MediaEvent.saveFile movie_fname]

/-- `make_webp`: same control flow as `make_gif` with a WebP save call. -/
def make_webp {F : Type} (selected_frames : List F) (movie_fname : String) :
    List MediaEvent :=
  let frame_list := selected_frames
  if frame_list.isEmpty then [MediaEvent.warnNoFrames movie_fname]
  else [MediaEvent.saveFile movie_fname]

/-- The attribute names bound at module level in `replay.py`: its four
imports and its three function definitions.  No `write_wav` is among
them. -/
def replay_module_names : List String :=
  [("retro"), ("logging"), ("State"), ("op"),
   ("replay_bk2"), ("get_variables_from_replay"), ("reformat_info")]

/-- The names `video.py` imports from `replay.py`
(`from .replay import write_wav`). -/
def video_module_imports_from_replay : List String := [("write_wav")]

/-- Python import semantics for `video.py`: importing the module fails
with `ImportError` as soon as a requested name is not bound in the
source module. -/
def import_video_module : Except String Unit :=
  if video_module_imports_from_replay.all (fun n => replay_module_names.contains n)
  then Except.ok ()
  else Except.error ("ImportError: cannot import name write_wav from cneuromod_vg_utils.replay")

/-- A one-button emulator over natural-number states and frames, used to
evaluate the replay model on concrete inputs. -/
def demoEmu : Emulator Nat Nat :=
  { buttons := [("A")], num_buttons := 1, reset := fun s => s,
    step := fun s _ =>
      { frame := s, reward := 0, terminate := true, truncate := false,
        info := [(("score"), PyVal.int 7)], next := s + 1 },
    getState := fun s => s }

/-- A one-player movie with a single loggable step. -/
def demoMovie : Movie Nat :=
  { players := 1, steps := [fun _ _ => true], state := 0, game := ("Game") }

/-- A one-player movie with no loggable steps. -/
def emptyMovie : Movie Nat :=
  { players := 1, steps := [], state := 0, game := ("Game") }

/-- The boolean `keys[i][j]`, with `false` as out-of-range default. -/
def keyBit (keys : List (List Bool)) (i j : Nat) : Bool :=
  ((keys.get? i).getD []).getD j false

/-- The value of an info mapping at a key, defaulting to Python `None`. -/
def infoValD (f : List (String × PyVal)) (k : String) : PyVal :=
  (dlookup f k).getD PyVal.none

/-- Length of a stored list value, when it is a list. -/
def seqLen : DVal → Option Nat
  | DVal.val _ => Option.none
  | DVal.seq l => some l.length

/-- Element of a stored list value at an index, when it is a list. -/
def seqGet (d : DVal) (i : Nat) : Option PyVal :=
  match d with
  | DVal.val _ => Option.none
  | DVal.seq l => l.get? i

/-! ## Theorems -/

theorem stepKeys_length (players n : Nat) (g : Nat → Nat → Bool) :
    (stepKeys players n g).length = players * n := by
  unfold stepKeys
  induction players with
  | zero => simp
  | succ p ih => simp [List.range_succ, ih, Nat.succ_mul]

theorem replayLoop_length {σ F : Type} (em : Emulator σ F) (players : Nat)
    (actions : List String) :
    ∀ (s : σ) (gs : List (Nat → Nat → Bool)),
      (replayLoop em players actions s gs).length = gs.length := by
  intro s gs
  induction gs generalizing s with
  | nil => rfl
  | cons g rest ih => simp [replayLoop, ih]

theorem replayLoop_keys_length {σ F : Type} (em : Emulator σ F) (players : Nat)
    (actions : List String) :
    ∀ (s : σ) (gs : List (Nat → Nat → Bool)) (r : StepRecord σ F),
      r ∈ replayLoop em players actions s gs →
      r.keys.length = players * em.num_buttons := by
  intro s gs
  induction gs generalizing s with
  | nil => intro r h; simp [replayLoop] at h
  | cons g rest ih =>
    intro r h
    rw [replayLoop] at h
    rcases List.mem_cons.mp h with h1 | h1
    · subst h1; exact stepKeys_length players em.num_buttons g
    · exact ih _ r h1

/-- C1: with `skip_first_step` disabled, `replay_bk2` yields one Replay
Step Record per loggable movie step; with it enabled it yields one fewer
(the first movie step is consumed without emitting a record); every
yielded record's key vector has length `players * num_buttons`. -/
theorem replay_bk2_record_count {σ F : Type} (movie : Movie σ) (em : Emulator σ F) :
    (replay_bk2 movie em false).length = movie.steps.length ∧
    (replay_bk2 movie em true).length = movie.steps.length - 1 ∧
    (∀ r ∈ replay_bk2 movie em false,
      r.keys.length = movie.players * em.num_buttons) ∧
    (∀ r ∈ replay_bk2 movie em true,
      r.keys.length = movie.players * em.num_buttons) := by
  refine ⟨?_, ?_, ?_, ?_⟩
  · simp [replay_bk2, replayLoop_length]
  · simp [replay_bk2, replayLoop_length]
  · intro r h
    exact replayLoop_keys_length em movie.players em.buttons _ _ r h
  · intro r h
    exact replayLoop_keys_length em movie.players em.buttons _ _ r h

theorem execUpToYield_all {σ F : Type} :
    ∀ (rs : List (StepRecord σ F)) (k : Nat), rs.length < k →
      execUpToYield k (rs.map ReplayEvent.yielded ++
          [ReplayEvent.closeEmulator, ReplayEvent.closeMovie]) =
        rs.map ReplayEvent.yielded ++
          [ReplayEvent.closeEmulator, ReplayEvent.closeMovie] := by
  intro rs
  induction rs with
  | nil =>
    intro k hk
    cases k with
    | zero => omega
    | succ k => rfl
  | cons r rest ih =>
    intro k hk
    cases k with
    | zero => omega
    | succ k =>
      have h1 : rest.length < k := by
        simp at hk; omega
      simp only [List.map_cons, List.cons_append, execUpToYield, List.append_eq]
      rw [ih k h1]

theorem execUpToYield_partial {σ F : Type} :
    ∀ (rs : List (StepRecord σ F)) (k : Nat), k ≤ rs.length →
      execUpToYield k (rs.map ReplayEvent.yielded ++
          [ReplayEvent.closeEmulator, ReplayEvent.closeMovie]) =
        (rs.take k).map ReplayEvent.yielded := by
  intro rs
  induction rs with
  | nil =>
    intro k hk
    have : k = 0 := by simpa using hk
    subst this
    rfl
  | cons r rest ih =>
    intro k hk
    cases k with
    | zero => rfl
    | succ k =>
      have h1 : k ≤ rest.length := by
        simp at hk; omega
      simp only [List.map_cons, List.cons_append, execUpToYield, List.take,
        List.append_eq]
      rw [ih k h1]

/-- C3 (amended): on normal exhaustion of the movie's steps both
`emulator.close()` and `movie.close()` execute before control returns
(they sit in the trace after all yields, and a consumer that pulls past
the last yield runs them); but when the consumer stops iterating early,
having pulled at most the available records, neither close has executed
— the source has no try/finally around the loop. -/
theorem replay_cleanup_on_exhaustion_only {σ F : Type} (movie : Movie σ)
    (em : Emulator σ F) (skip_first_step : Bool) :
    ReplayEvent.closeEmulator ∈ replayTrace movie em skip_first_step ∧
    ReplayEvent.closeMovie ∈ replayTrace movie em skip_first_step ∧
    (∀ k, (replay_bk2 movie em skip_first_step).length < k →
      execUpToYield k (replayTrace movie em skip_first_step) =
        replayTrace movie em skip_first_step) ∧
    (∀ k, k ≤ (replay_bk2 movie em skip_first_step).length →
      ReplayEvent.closeEmulator ∉
        execUpToYield k (replayTrace movie em skip_first_step) ∧
      ReplayEvent.closeMovie ∉
        execUpToYield k (replayTrace movie em skip_first_step)) := by
  refine ⟨?_, ?_, ?_, ?_⟩
  · simp [replayTrace]
  · simp [replayTrace]
  · intro k hk
    exact execUpToYield_all _ k hk
  · intro k hk
    rw [replayTrace, execUpToYield_partial _ k hk]
    refine ⟨?_, ?_⟩ <;> intro h <;> rcases List.mem_map.mp h with ⟨r, hmem, hr⟩ <;>
      simp at hr

/-- C3 counterexample: for a one-step movie, a consumer that pulls the
single record and then abandons the generator has executed neither
`emulator.close()` nor `movie.close()` — the claim that both resources
are released on early termination is false of the code. -/
theorem replay_early_exit_cex :
    (replay_bk2 demoMovie demoEmu false).length = 1 ∧
    ReplayEvent.closeEmulator ∉
      execUpToYield 1 (replayTrace demoMovie demoEmu false) ∧
    ReplayEvent.closeMovie ∉
      execUpToYield 1 (replayTrace demoMovie demoEmu false) := by
  decide

theorem replay_cleanup_on_exhaustion_only_witness :
    (execUpToYield 2 (replayTrace demoMovie demoEmu false) =
      replayTrace demoMovie demoEmu false) ∧
    ReplayEvent.closeMovie ∉
      execUpToYield 1 (replayTrace demoMovie demoEmu false) := by
  constructor
  · exact (replay_cleanup_on_exhaustion_only demoMovie demoEmu false).2.2.1 2 (by decide)
  · exact ((replay_cleanup_on_exhaustion_only demoMovie demoEmu false).2.2.2 1 (by decide)).2

/-- C7: for an empty frame sequence, `make_gif` and `make_webp` log the
no-frames warning, perform no save call, and return normally (they are
total functions here, so no error is raised). -/
theorem make_gif_webp_empty_noop {F : Type} (movie_fname : String) :
    make_gif ([] : List F) movie_fname = [MediaEvent.warnNoFrames movie_fname] ∧
    make_webp ([] : List F) movie_fname = [MediaEvent.warnNoFrames movie_fname] ∧
    MediaEvent.saveFile movie_fname ∉ make_gif ([] : List F) movie_fname ∧
    MediaEvent.saveFile movie_fname ∉ make_webp ([] : List F) movie_fname := by
  refine ⟨rfl, rfl, ?_, ?_⟩ <;> simp [make_gif, make_webp]

/-- C8: `replay.py` binds no name `write_wav`, so
`from .replay import write_wav` at the top of `video.py` fails with
`ImportError`; yet the audio path of `make_mp4` does call `write_wav`
(the `writeWav` event appears in its trace). -/
theorem video_module_import_fails :
    ("write_wav") ∉ replay_module_names ∧
    import_video_module =
      Except.error ("ImportError: cannot import name write_wav from cneuromod_vg_utils.replay") ∧
    VidEvent.writeWav 44100 ∈
      (make_mp4 ([0] : List Nat) ("out.mp4") (some { isInt16 := true })
        (some 44100) 60 (SubOutcome.exited 0) initialVidWorld).2.events := by
  refine ⟨by decide, by rfl, ?_⟩
  decide

/-- C9: whenever the replay yields zero Replay Step Records, the loop in
`get_variables_from_replay` never binds `actions`, so the call
`reformat_info(..., actions)` raises `NameError` — no empty dataset is
returned. -/
theorem get_variables_empty_replay_errors {σ F : Type} (movie : Movie σ)
    (em : Emulator σ F) (bk2_fpath : String) (skip_first_step : Bool)
    (h : replay_bk2 movie em skip_first_step = []) :
    get_variables_from_replay movie em bk2_fpath skip_first_step =
      Except.error PyErr.nameError := by
  simp [get_variables_from_replay, h]

theorem get_variables_empty_replay_errors_witness :
    get_variables_from_replay emptyMovie demoEmu ("sub-01.bk2") true =
      Except.error PyErr.nameError :=
  get_variables_empty_replay_errors emptyMovie demoEmu ("sub-01.bk2") true (by decide)

/-- C10: when only one of `audio` / `sample_rate` is supplied, `make_mp4`
takes the silent branch: the temporary video is moved to the final path,
the temporary directory is removed, it returns normally, and the trace
shows no waveform write, no ffmpeg invocation and no log message. -/
theorem make_mp4_partial_audio_ignored {F : Type} (selected_frames : List F)
    (movie_fname : String) (a : AudioArray) (sr fps : Nat) (ffmpeg : SubOutcome) :
    make_mp4 selected_frames movie_fname (some a) Option.none fps ffmpeg
        initialVidWorld =
      (Except.ok (),
        { tempDirExists := false, tempVideoExists := false, tempAudioExists := false,
          finalExists := true,
          events := [VidEvent.mkdtemp,
            VidEvent.writeTempVideo selected_frames.length fps,
            VidEvent.replaceTempVideoToFinal, VidEvent.rmdirTempDir] }) ∧
    make_mp4 selected_frames movie_fname Option.none (some sr) fps ffmpeg
        initialVidWorld =
      (Except.ok (),
        { tempDirExists := false, tempVideoExists := false, tempAudioExists := false,
          finalExists := true,
          events := [VidEvent.mkdtemp,
            VidEvent.writeTempVideo selected_frames.length fps,
            VidEvent.replaceTempVideoToFinal, VidEvent.rmdirTempDir] }) := by
  constructor <;> rfl

/-- C4: in the audio path of `make_mp4`, the
`RuntimeError("ffmpeg binary is required to mux audio into MP4")` — the
code's realization of the spec's ExternalToolMissing — is raised exactly
when the ffmpeg binary cannot be located, and `CalledProcessError` — the
realization of MuxError — exactly when the process exits with a non-zero
status; in the missing-binary case the finally block has already removed
both temporary files and the temporary directory. -/
theorem make_mp4_error_mapping {F : Type} (selected_frames : List F)
    (movie_fname : String) (a : AudioArray) (sr fps : Nat) (ffmpeg : SubOutcome) :
    ((make_mp4 selected_frames movie_fname (some a) (some sr) fps ffmpeg
          initialVidWorld).1 =
        Except.error (VidErr.runtimeError ("ffmpeg binary is required to mux audio into MP4")) ↔
      ffmpeg = SubOutcome.binaryMissing) ∧
    (∀ c, (make_mp4 selected_frames movie_fname (some a) (some sr) fps ffmpeg
          initialVidWorld).1 = Except.error (VidErr.calledProcessError c) ↔
      (ffmpeg = SubOutcome.exited c ∧ c ≠ 0)) ∧
    (ffmpeg = SubOutcome.binaryMissing →
      ((make_mp4 selected_frames movie_fname (some a) (some sr) fps ffmpeg
          initialVidWorld).2.tempDirExists = false ∧
       (make_mp4 selected_frames movie_fname (some a) (some sr) fps ffmpeg
          initialVidWorld).2.tempVideoExists = false ∧
       (make_mp4 selected_frames movie_fname (some a) (some sr) fps ffmpeg
          initialVidWorld).2.tempAudioExists = false)) := by
  obtain ⟨b⟩ := a
  rcases ffmpeg with _ | c
  · cases b <;>
      simp [make_mp4, vidSeq, vidPure, vidRaise, mkdtempOp, writeTempVideoOp,
        logInfoOp, writeWavOp, withFinally, catchFileNotFound, runFfmpegOp,
        ignoreOSError, unlinkTempAudioOp, unlinkTempVideoOp, rmdirOp, replaceOp,
        logEvent, initialVidWorld]
  · rcases c with _ | c <;> cases b <;>
      simp [make_mp4, vidSeq, vidPure, vidRaise, mkdtempOp, writeTempVideoOp,
        logInfoOp, writeWavOp, withFinally, catchFileNotFound, runFfmpegOp,
        ignoreOSError, unlinkTempAudioOp, unlinkTempVideoOp, rmdirOp, replaceOp,
        logEvent, initialVidWorld]

theorem make_mp4_error_mapping_witness :
    (make_mp4 ([0] : List Nat) ("out.mp4") (some { isInt16 := true }) (some 8000) 60
        SubOutcome.binaryMissing initialVidWorld).2.tempDirExists = false ∧
    (make_mp4 ([0] : List Nat) ("out.mp4") (some { isInt16 := true }) (some 8000) 60
        SubOutcome.binaryMissing initialVidWorld).2.tempVideoExists = false ∧
    (make_mp4 ([0] : List Nat) ("out.mp4") (some { isInt16 := true }) (some 8000) 60
        SubOutcome.binaryMissing initialVidWorld).2.tempAudioExists = false :=
  (make_mp4_error_mapping [0] ("out.mp4") { isInt16 := true } 8000 60
    SubOutcome.binaryMissing).2.2 rfl

/-- C5 (amended): for `make_mp4` with frames, an audio array and a sample
rate, every temporary file and the temporary directory have been removed
after the call whatever the muxing outcome; but the final file exists at
the requested output path exactly when the muxing subprocess succeeded
(the call returned normally), not when it failed. -/
theorem make_mp4_cleanup_total {F : Type} (selected_frames : List F)
    (movie_fname : String) (a : AudioArray) (sr fps : Nat) (ffmpeg : SubOutcome) :
    (make_mp4 selected_frames movie_fname (some a) (some sr) fps ffmpeg
        initialVidWorld).2.tempDirExists = false ∧
    (make_mp4 selected_frames movie_fname (some a) (some sr) fps ffmpeg
        initialVidWorld).2.tempVideoExists = false ∧
    (make_mp4 selected_frames movie_fname (some a) (some sr) fps ffmpeg
        initialVidWorld).2.tempAudioExists = false ∧
    ((make_mp4 selected_frames movie_fname (some a) (some sr) fps ffmpeg
        initialVidWorld).1 = Except.ok () ↔ ffmpeg = SubOutcome.exited 0) ∧
    ((make_mp4 selected_frames movie_fname (some a) (some sr) fps ffmpeg
        initialVidWorld).2.finalExists = true ↔ ffmpeg = SubOutcome.exited 0) := by
  obtain ⟨b⟩ := a
  rcases ffmpeg with _ | c
  · cases b <;>
      simp [make_mp4, vidSeq, vidPure, vidRaise, mkdtempOp, writeTempVideoOp,
        logInfoOp, writeWavOp, withFinally, catchFileNotFound, runFfmpegOp,
        ignoreOSError, unlinkTempAudioOp, unlinkTempVideoOp, rmdirOp, replaceOp,
        logEvent, initialVidWorld]
  · rcases c with _ | c <;> cases b <;>
      simp [make_mp4, vidSeq, vidPure, vidRaise, mkdtempOp, writeTempVideoOp,
        logInfoOp, writeWavOp, withFinally, catchFileNotFound, runFfmpegOp,
        ignoreOSError, unlinkTempAudioOp, unlinkTempVideoOp, rmdirOp, replaceOp,
        logEvent, initialVidWorld]

theorem make_mp4_cleanup_total_witness :
    (make_mp4 ([0] : List Nat) ("out.mp4") (some { isInt16 := false }) (some 8000) 30
        (SubOutcome.exited 0) initialVidWorld).2.finalExists = true :=
  ((make_mp4_cleanup_total [0] ("out.mp4") { isInt16 := false } 8000 30
    (SubOutcome.exited 0)).2.2.2.2).mpr rfl

/-- C5 counterexample: with frames, an int16 audio array and a sample
rate supplied but the ffmpeg binary missing, the call raises and no file
exists at the requested output path afterwards — the claim that the
final file exists even when muxing failed is false of the code. -/
theorem make_mp4_final_missing_cex :
    (make_mp4 ([0] : List Nat) ("out.mp4") (some { isInt16 := true }) (some 44100) 60
        SubOutcome.binaryMissing initialVidWorld).2.finalExists = false ∧
    (make_mp4 ([0] : List Nat) ("out.mp4") (some { isInt16 := true }) (some 44100) 60
        SubOutcome.binaryMissing initialVidWorld).1 ≠ Except.ok () := by
  refine ⟨rfl, ?_⟩
  intro h
  exact Except.noConfusion h

/-- C6: `reformat_info` maps the base name
`sub-01_ses-02_level-W1_run-1.bk2` (splitting on underscores, then each
hyphenated token once at its first hyphen) to subject "01", session "02"
and level "W1"; a filename lacking a `sub-` token yields subject `None`
without raising. -/
theorem reformat_info_filename_parsing :
    (reformat_info [[(("score"), PyVal.int 0)]] [[]]
        ("data/sub-01_ses-02_level-W1_run-1.bk2") []).map
      (fun rv => (dlookup rv ("subject"), dlookup rv ("session"), dlookup rv ("level"))) =
      Except.ok (some (DVal.val (PyVal.str ("01"))), some (DVal.val (PyVal.str ("02"))),
        some (DVal.val (PyVal.str ("W1")))) ∧
    (reformat_info [[(("score"), PyVal.int 0)]] [[]]
        ("ses-02_level-W1_run-1.bk2") []).map
      (fun rv => dlookup rv ("subject")) = Except.ok (some (DVal.val PyVal.none)) := by
  constructor <;> rfl

/-- C2 counterexample: with one frame, one key vector and the single
action name "x" colliding with the info key "x", the shared sequence
receives two appends per frame: its length is 2 while the frame count is
1, and its element at index 0 is the info value, not `keys[0][0]`. -/
theorem reformat_info_collision_cex :
    (reformat_info [[(("x"), PyVal.int 0)]] [[true]] ("f.bk2") [("x")]).map
        (fun rv => (dlookup rv ("x")).map seqLen) =
      Except.ok (some (some 2)) ∧
    (reformat_info [[(("x"), PyVal.int 0)]] [[true]] ("f.bk2") [("x")]).map
        (fun rv => (dlookup rv ("x")).map (fun d => seqGet d 0)) =
      Except.ok (some (some (PyVal.int 0))) ∧
    (2 : Nat) ≠ 1 ∧ PyVal.int 0 ≠ PyVal.bool true := by
  refine ⟨rfl, rfl, by decide, by decide⟩

theorem dlookup_dset {α : Type} (d : List (String × α)) (k k0 : String) (v : α) :
    dlookup (dset d k v) k0 = if k = k0 then some v else dlookup d k0 := by
  induction d with
  | nil => simp [dset, dlookup]
  | cons kv rest ih =>
    obtain ⟨k1, v1⟩ := kv
    by_cases h1 : k1 = k
    · subst h1
      by_cases h2 : k1 = k0
      · subst h2; simp [dset, dlookup]
      · simp [dset, dlookup, h2]
    · by_cases h2 : k1 = k0
      · subst h2
        have h3 : ¬ (k = k1) := fun h => h1 h.symm
        simp [dset, dlookup, h1, h3]
      · simp [dset, dlookup, h1, h2, ih]

theorem appendTo_seq (rv : List (String × DVal)) (k : String) (l : List PyVal)
    (v : PyVal) (h : dlookup rv k = some (DVal.seq l)) :
    appendTo rv k v = Except.ok (dset rv k (DVal.seq (l ++ [v]))) := by
  simp [appendTo, h]

theorem foldl_dset_fill {α : Type} (e : α) :
    ∀ (ks : List String) (d : List (String × α)),
      (∀ k, k ∈ ks → dlookup (ks.foldl (fun d k => dset d k e) d) k = some e) ∧
      (∀ k, k ∉ ks → dlookup (ks.foldl (fun d k => dset d k e) d) k = dlookup d k) := by
  intro ks
  induction ks with
  | nil =>
    intro d
    exact ⟨fun k hk => absurd hk (List.not_mem_nil k), fun k _ => rfl⟩
  | cons k0 rest ih =>
    intro d
    constructor
    · intro k hk
      rw [List.foldl_cons]
      rcases List.mem_cons.mp hk with h | h
      · subst h
        by_cases hr : k ∈ rest
        · exact (ih (dset d k e)).1 k hr
        · rw [(ih (dset d k e)).2 k hr, dlookup_dset, if_pos rfl]
      · exact (ih (dset d k0 e)).1 k h
    · intro k hk
      have h1 : ¬ (k = k0) := fun h => hk (h ▸ List.mem_cons_self k0 rest)
      have h2 : k ∉ rest := fun h => hk (List.mem_cons_of_mem k0 h)
      rw [List.foldl_cons, (ih (dset d k0 e)).2 k h2, dlookup_dset,
        if_neg (fun h => h1 h.symm)]

theorem dlookup_of_mem_nodup {α : Type} :
    ∀ (f : List (String × α)), (f.map Prod.fst).Nodup →
      ∀ kv, kv ∈ f → dlookup f kv.1 = some kv.2 := by
  intro f
  induction f with
  | nil => intro _ kv hkv; simp at hkv
  | cons a rest ih =>
    intro hnd kv hkv
    obtain ⟨k1, v1⟩ := a
    rw [List.map_cons, List.nodup_cons] at hnd
    rcases List.mem_cons.mp hkv with h | h
    · subst h; simp [dlookup]
    · have h1 : ¬ (k1 = kv.1) := by
        intro he
        have hm : kv.1 ∈ rest.map Prod.fst := List.mem_map_of_mem Prod.fst h
        rw [← he] at hm
        exact hnd.1 hm
      rw [dlookup, if_neg h1]
      exact ih hnd.2 kv h

theorem foldlM_infoAppend :
    ∀ (f : List (String × PyVal)) (rv : List (String × DVal))
      (L : String → List PyVal),
      (f.map Prod.fst).Nodup →
      (∀ kv, kv ∈ f → dlookup rv kv.1 = some (DVal.seq (L kv.1))) →
      ∃ rv1, f.foldlM infoAppend rv = Except.ok rv1 ∧
        (∀ kv, kv ∈ f → dlookup rv1 kv.1 = some (DVal.seq (L kv.1 ++ [kv.2]))) ∧
        (∀ k, k ∉ f.map Prod.fst → dlookup rv1 k = dlookup rv k) := by
  intro f
  induction f with
  | nil =>
    intro rv L _ _
    exact ⟨rv, rfl, by simp, fun k _ => rfl⟩
  | cons kv0 rest ih =>
    intro rv L hnd hL
    obtain ⟨k0, v0⟩ := kv0
    rw [List.map_cons, List.nodup_cons] at hnd
    have hk0 : dlookup rv k0 = some (DVal.seq (L k0)) :=
      hL (k0, v0) (List.mem_cons_self _ _)
    have hstep : infoAppend rv (k0, v0) =
        Except.ok (dset rv k0 (DVal.seq (L k0 ++ [v0]))) :=
      appendTo_seq rv k0 (L k0) v0 hk0
    have hLrest : ∀ kv, kv ∈ rest →
        dlookup (dset rv k0 (DVal.seq (L k0 ++ [v0]))) kv.1 =
          some (DVal.seq (L kv.1)) := by
      intro kv hkv
      rw [dlookup_dset]
      have hne : ¬ (k0 = kv.1) := by
        intro he
        have hm : kv.1 ∈ rest.map Prod.fst := List.mem_map_of_mem Prod.fst hkv
        rw [← he] at hm
        exact hnd.1 hm
      rw [if_neg hne]
      exact hL kv (List.mem_cons_of_mem _ hkv)
    obtain ⟨rv1, hok, hmem, hout⟩ :=
      ih (dset rv k0 (DVal.seq (L k0 ++ [v0]))) L hnd.2 hLrest
    refine ⟨rv1, ?_, ?_, ?_⟩
    · rw [List.foldlM_cons, hstep]
      exact hok
    · intro kv hkv
      rcases List.mem_cons.mp hkv with h | h
      · subst h
        rw [hout k0 hnd.1, dlookup_dset, if_pos rfl]
      · exact hmem kv h
    · intro k hk
      rw [List.map_cons] at hk
      have hk1 : k ∉ rest.map Prod.fst := fun h => hk (List.mem_cons_of_mem _ h)
      have hkne : ¬ (k0 = k) := fun he => hk (he ▸ List.mem_cons_self _ _)
      rw [hout k hk1, dlookup_dset, if_neg hkne]

theorem buttonAppend_eval (keys : List (List Bool)) (i : Nat) (row : List Bool)
    (hrow : keys.get? i = some row) (rv : List (String × DVal)) (j : Nat)
    (a : String) (b : Bool) (hb : row.get? j = some b) (l : List PyVal)
    (hl : dlookup rv a = some (DVal.seq l)) :
    buttonAppend keys i rv (j, a) =
      Except.ok (dset rv a (DVal.seq (l ++ [PyVal.bool b]))) := by
  have hrow2 : keys[i]? = some row := by
    rw [← List.get?_eq_getElem?]; exact hrow
  have hb2 : row[j]? = some b := by
    rw [← List.get?_eq_getElem?]; exact hb
  simp [buttonAppend, pyIndex, hrow2, hb2, Bind.bind, Except.bind,
    appendTo_seq rv a l (PyVal.bool b) hl]

theorem foldlM_buttonAppend (keys : List (List Bool)) (i : Nat) (row : List Bool)
    (hrow : keys.get? i = some row) :
    ∀ (acts : List String) (n : Nat) (rv : List (String × DVal))
      (M : Nat → List PyVal),
      n + acts.length ≤ row.length →
      acts.Nodup →
      (∀ j, (hj : j < acts.length) →
        dlookup rv (acts.get ⟨j, hj⟩) = some (DVal.seq (M j))) →
      ∃ rv1, (acts.enumFrom n).foldlM (buttonAppend keys i) rv = Except.ok rv1 ∧
        (∀ j, (hj : j < acts.length) → dlookup rv1 (acts.get ⟨j, hj⟩) =
          some (DVal.seq (M j ++ [PyVal.bool (row.getD (n + j) false)]))) ∧
        (∀ k, k ∉ acts → dlookup rv1 k = dlookup rv k) := by
  intro acts
  induction acts with
  | nil =>
    intro n rv M _ _ _
    exact ⟨rv, rfl, fun j hj => absurd hj (Nat.not_lt_zero j), fun k _ => rfl⟩
  | cons a rest ih =>
    intro n rv M hlen hnd hM
    rw [List.nodup_cons] at hnd
    have hnlt : n < row.length := by
      simp only [List.length_cons] at hlen
      omega
    have hbn : row.get? n = some (row.get ⟨n, hnlt⟩) := List.get?_eq_get hnlt
    have ha : dlookup rv a = some (DVal.seq (M 0)) := by
      have h0 := hM 0 (Nat.succ_pos rest.length)
      simpa using h0
    have hstep := buttonAppend_eval keys i row hrow rv n a (row.get ⟨n, hnlt⟩)
      hbn (M 0) ha
    have hMrest : ∀ j, (hj : j < rest.length) →
        dlookup (dset rv a (DVal.seq (M 0 ++ [PyVal.bool (row.get ⟨n, hnlt⟩)])))
            (rest.get ⟨j, hj⟩) = some (DVal.seq (M (j + 1))) := by
      intro j hj
      rw [dlookup_dset]
      have hne : ¬ (a = rest.get ⟨j, hj⟩) := by
        intro he
        exact hnd.1 (he ▸ rest.get_mem j hj)
      rw [if_neg hne]
      have hj1 : j + 1 < (a :: rest).length := by
        simp only [List.length_cons]
        omega
      have := hM (j + 1) hj1
      simpa using this
    have hlen1 : (n + 1) + rest.length ≤ row.length := by
      simp only [List.length_cons] at hlen
      omega
    obtain ⟨rv1, hok, hmem, hout⟩ :=
      ih (n + 1) (dset rv a (DVal.seq (M 0 ++ [PyVal.bool (row.get ⟨n, hnlt⟩)])))
        (fun j => M (j + 1)) hlen1 hnd.2 hMrest
    refine ⟨rv1, ?_, ?_, ?_⟩
    · rw [List.enumFrom_cons, List.foldlM_cons, hstep]
      exact hok
    · intro j hj
      cases j with
      | zero =>
        have hanr : a ∉ rest := hnd.1
        have hget : row.getD (n + 0) false = row.get ⟨n, hnlt⟩ := by
          simp [List.getD_eq_getElem?_getD, List.getElem?_eq_getElem hnlt]
        simp only [List.get]
        rw [hout a hanr, dlookup_dset, if_pos rfl, hget]
      | succ j =>
        have hj1 : j < rest.length := by
          simp only [List.length_cons] at hj
          omega
        have := hmem j hj1
        have harith : n + 1 + j = n + (j + 1) := by omega
        rw [harith] at this
        simpa using this
    · intro k hk
      have h1 : k ∉ rest := fun h => hk (List.mem_cons_of_mem _ h)
      have h2 : ¬ (a = k) := fun he => hk (he ▸ List.mem_cons_self _ _)
      rw [hout k h1, dlookup_dset, if_neg h2]

theorem frameStep_eval (keys : List (List Bool)) (actions : List String)
    (rv rva rvb : List (String × DVal)) (i : Nat) (f : List (String × PyVal))
    (h1 : f.foldlM infoAppend rv = Except.ok rva)
    (h2 : (actions.enum).foldlM (buttonAppend keys i) rva = Except.ok rvb) :
    frameStep keys actions rv (i, f) = Except.ok rvb := by
  simp [frameStep, h1, h2, Bind.bind, Except.bind]

theorem foldlM_frameStep (keys : List (List Bool)) (actions : List String)
    (firstKeys : List String) (hndF : firstKeys.Nodup) (hndA : actions.Nodup)
    (hdisj : ∀ a ∈ actions, a ∉ firstKeys) :
    ∀ (frames : List (List (String × PyVal))) (i0 : Nat)
      (rv : List (String × DVal)) (L : String → List PyVal)
      (M : Nat → List PyVal),
      (∀ f ∈ frames, f.map Prod.fst = firstKeys) →
      (∀ t, t < frames.length → ∃ row, keys.get? (i0 + t) = some row ∧
        actions.length ≤ row.length) →
      (∀ k ∈ firstKeys, dlookup rv k = some (DVal.seq (L k))) →
      (∀ j, (hj : j < actions.length) →
        dlookup rv (actions.get ⟨j, hj⟩) = some (DVal.seq (M j))) →
      ∃ rv1, (frames.enumFrom i0).foldlM (frameStep keys actions) rv =
          Except.ok rv1 ∧
        (∀ k ∈ firstKeys, dlookup rv1 k =
          some (DVal.seq (L k ++ frames.map (fun f => infoValD f k)))) ∧
        (∀ j, (hj : j < actions.length) → dlookup rv1 (actions.get ⟨j, hj⟩) =
          some (DVal.seq (M j ++ (List.range frames.length).map
            (fun t => PyVal.bool (keyBit keys (i0 + t) j))))) := by
  intro frames
  induction frames with
  | nil =>
    intro i0 rv L M _ _ hL hM
    refine ⟨rv, rfl, ?_, ?_⟩
    · intro k hk; simpa using hL k hk
    · intro j hj; simpa using hM j hj
  | cons f rest ih =>
    intro i0 rv L M hsame hrows hL hM
    have hfk : f.map Prod.fst = firstKeys := hsame f (List.mem_cons_self _ _)
    have hfnd : (f.map Prod.fst).Nodup := by rw [hfk]; exact hndF
    have hLf : ∀ kv, kv ∈ f → dlookup rv kv.1 = some (DVal.seq (L kv.1)) := by
      intro kv hkv
      exact hL kv.1 (by rw [← hfk]; exact List.mem_map_of_mem Prod.fst hkv)
    obtain ⟨rva, hokA, hmemA, houtA⟩ := foldlM_infoAppend f rv L hfnd hLf
    have hrvaKeys : ∀ k ∈ firstKeys,
        dlookup rva k = some (DVal.seq (L k ++ [infoValD f k])) := by
      intro k hk
      rw [← hfk] at hk
      obtain ⟨kv, hkvmem, hkv1⟩ := List.mem_map.mp hk
      have hval : dlookup f k = some kv.2 := by
        rw [← hkv1]; exact dlookup_of_mem_nodup f hfnd kv hkvmem
      have hv : infoValD f k = kv.2 := by simp [infoValD, hval]
      rw [hv, ← hkv1]
      exact hmemA kv hkvmem
    have hrvaActs : ∀ j, (hj : j < actions.length) →
        dlookup rva (actions.get ⟨j, hj⟩) = some (DVal.seq (M j)) := by
      intro j hj
      have hmem := actions.get_mem j hj
      have hnotin : actions.get ⟨j, hj⟩ ∉ f.map Prod.fst := by
        rw [hfk]; exact hdisj _ hmem
      rw [houtA _ hnotin]
      exact hM j hj
    obtain ⟨row, hrow0, hrowlen⟩ := hrows 0 (Nat.succ_pos rest.length)
    rw [Nat.add_zero] at hrow0
    obtain ⟨rvb, hokB, hmemB, houtB⟩ := foldlM_buttonAppend keys i0 row hrow0
      actions 0 rva M (by omega) hndA hrvaActs
    have hokB2 : (actions.enum).foldlM (buttonAppend keys i0) rva =
        Except.ok rvb := by
      rw [List.enum_eq_enumFrom]; exact hokB
    have hrvbKeys : ∀ k ∈ firstKeys,
        dlookup rvb k = some (DVal.seq (L k ++ [infoValD f k])) := by
      intro k hk
      have hknact : k ∉ actions := fun ha => hdisj k ha hk
      rw [houtB k hknact]
      exact hrvaKeys k hk
    have hrvbActs : ∀ j, (hj : j < actions.length) →
        dlookup rvb (actions.get ⟨j, hj⟩) =
          some (DVal.seq (M j ++ [PyVal.bool (keyBit keys i0 j)])) := by
      intro j hj
      have hmb := hmemB j hj
      have hkb : row.getD (0 + j) false = keyBit keys i0 j := by
        have hrow2 : keys[i0]? = some row := by
          rw [← List.get?_eq_getElem?]; exact hrow0
        simp [keyBit, hrow2]
      rw [hkb] at hmb
      exact hmb
    have hsame1 : ∀ g ∈ rest, g.map Prod.fst = firstKeys :=
      fun g hg => hsame g (List.mem_cons_of_mem _ hg)
    have hrows1 : ∀ t, t < rest.length →
        ∃ row2, keys.get? (i0 + 1 + t) = some row2 ∧
          actions.length ≤ row2.length := by
      intro t ht
      have ht1 : t + 1 < (f :: rest).length := by
        simp only [List.length_cons]; omega
      obtain ⟨row2, h1, h2⟩ := hrows (t + 1) ht1
      refine ⟨row2, ?_, h2⟩
      rw [← h1]
      congr 1
      omega
    obtain ⟨rv1, hok1, hkeys1, hacts1⟩ := ih (i0 + 1) rvb
      (fun k => L k ++ [infoValD f k])
      (fun j => M j ++ [PyVal.bool (keyBit keys i0 j)])
      hsame1 hrows1 hrvbKeys hrvbActs
    refine ⟨rv1, ?_, ?_, ?_⟩
    · rw [List.enumFrom_cons, List.foldlM_cons,
        frameStep_eval keys actions rv rva rvb i0 f hokA hokB2]
      exact hok1
    · intro k hk
      rw [hkeys1 k hk]
      simp
    · intro j hj
      rw [hacts1 j hj]
      have harith : ∀ t : Nat, i0 + 1 + t = i0 + (t + 1) := by omega
      simp [List.range_succ_eq_map, List.map_map, Function.comp, harith]

theorem keyBit_eq_get (keys : List (List Bool)) (i j : Nat) (hik : i < keys.length)
    (hjrow : j < (keys.get ⟨i, hik⟩).length) :
    keyBit keys i j = (keys.get ⟨i, hik⟩).get ⟨j, hjrow⟩ := by
  rw [keyBit, List.get?_eq_get hik]
  simp only [Option.getD_some]
  rw [List.getD_eq_getElem?_getD, List.getElem?_eq_getElem hjrow]
  simp [List.get_eq_getElem]

/-- C2 (amended): for a non-empty info list whose frames all carry the
first frame's (duplicate-free) key set, action names that are pairwise
distinct and disjoint from the info keys, and key vectors covering every
frame with at least one entry per action, `reformat_info` succeeds,
every per-info-key sequence and every per-button sequence in the result
has length equal to the number of input frames, and the `j`-th action's
sequence at frame index `i` is exactly `keys[i][j]`. -/
theorem reformat_info_aligned
    (f0 : List (String × PyVal)) (rest : List (List (String × PyVal)))
    (keys : List (List Bool)) (bk2_fpath : String) (actions : List String)
    (hndF : (f0.map Prod.fst).Nodup)
    (hsame : ∀ f ∈ rest, f.map Prod.fst = f0.map Prod.fst)
    (hndA : actions.Nodup)
    (hdisj : ∀ a ∈ actions, a ∉ f0.map Prod.fst)
    (hklen : (f0 :: rest).length ≤ keys.length)
    (hrowlen : ∀ row ∈ keys, actions.length ≤ row.length) :
    ∃ rv, reformat_info (f0 :: rest) keys bk2_fpath actions = Except.ok rv ∧
      (∀ k ∈ f0.map Prod.fst, ∃ l, dlookup rv k = some (DVal.seq l) ∧
        l.length = (f0 :: rest).length) ∧
      (∀ j, (hj : j < actions.length) → ∃ l,
        dlookup rv (actions.get ⟨j, hj⟩) = some (DVal.seq l) ∧
        l.length = (f0 :: rest).length ∧
        (∀ i, (hi : i < (f0 :: rest).length) → ∃ row b,
          keys.get? i = some row ∧ row.get? j = some b ∧
          l.get? i = some (PyVal.bool b))) := by
  have hfold1 :
      f0.foldl (fun rv kv => dset rv kv.1 (DVal.seq []))
          (metaRecord bk2_fpath actions) =
        (f0.map Prod.fst).foldl (fun rv k => dset rv k (DVal.seq []))
          (metaRecord bk2_fpath actions) :=
    (List.foldl_map Prod.fst (fun rv k => dset rv k (DVal.seq [])) f0
      (metaRecord bk2_fpath actions)).symm
  have hinit1 := foldl_dset_fill (DVal.seq ([] : List PyVal)) (f0.map Prod.fst)
    (metaRecord bk2_fpath actions)
  have hinit2 := foldl_dset_fill (DVal.seq ([] : List PyVal)) actions
    ((f0.map Prod.fst).foldl (fun rv k => dset rv k (DVal.seq []))
      (metaRecord bk2_fpath actions))
  have hK : ∀ k ∈ f0.map Prod.fst,
      dlookup (actions.foldl (fun rv b => dset rv b (DVal.seq []))
        ((f0.map Prod.fst).foldl (fun rv k => dset rv k (DVal.seq []))
          (metaRecord bk2_fpath actions))) k = some (DVal.seq []) := by
    intro k hk
    have hkna : k ∉ actions := fun ha => hdisj k ha hk
    rw [hinit2.2 k hkna]
    exact hinit1.1 k hk
  have hA : ∀ j, (hj : j < actions.length) →
      dlookup (actions.foldl (fun rv b => dset rv b (DVal.seq []))
        ((f0.map Prod.fst).foldl (fun rv k => dset rv k (DVal.seq []))
          (metaRecord bk2_fpath actions))) (actions.get ⟨j, hj⟩) =
        some (DVal.seq []) := by
    intro j hj
    exact hinit2.1 _ (actions.get_mem j hj)
  have hsame1 : ∀ f ∈ (f0 :: rest), f.map Prod.fst = f0.map Prod.fst := by
    intro f hf
    rcases List.mem_cons.mp hf with h | h
    · subst h; rfl
    · exact hsame f h
  have hrows : ∀ t, t < (f0 :: rest).length →
      ∃ row, keys.get? (0 + t) = some row ∧ actions.length ≤ row.length := by
    intro t ht
    have htk : t < keys.length := lt_of_lt_of_le ht hklen
    refine ⟨keys.get ⟨t, htk⟩, ?_, hrowlen _ (keys.get_mem t htk)⟩
    rw [Nat.zero_add]
    exact List.get?_eq_get htk
  obtain ⟨rvf, hok, hkeys, hacts⟩ := foldlM_frameStep keys actions
    (f0.map Prod.fst) hndF hndA hdisj (f0 :: rest) 0
    (actions.foldl (fun rv b => dset rv b (DVal.seq []))
      ((f0.map Prod.fst).foldl (fun rv k => dset rv k (DVal.seq []))
        (metaRecord bk2_fpath actions)))
    (fun _ => []) (fun _ => []) hsame1 hrows hK hA
  refine ⟨rvf, ?_, ?_, ?_⟩
  · show ((f0 :: rest).enum).foldlM (frameStep keys actions)
        (actions.foldl (fun rv b => dset rv b (DVal.seq []))
          (f0.foldl (fun rv kv => dset rv kv.1 (DVal.seq []))
            (metaRecord bk2_fpath actions))) = Except.ok rvf
    rw [hfold1, List.enum_eq_enumFrom]
    exact hok
  · intro k hk
    refine ⟨(f0 :: rest).map (fun f => infoValD f k), ?_, ?_⟩
    · have h := hkeys k hk
      simpa using h
    · simp
  · intro j hj
    refine ⟨(List.range (f0 :: rest).length).map
        (fun t => PyVal.bool (keyBit keys (0 + t) j)), ?_, ?_, ?_⟩
    · have h := hacts j hj
      simpa using h
    · simp
    · intro i hi
      have hik : i < keys.length := lt_of_lt_of_le hi hklen
      have hjrow : j < (keys.get ⟨i, hik⟩).length :=
        lt_of_lt_of_le hj (hrowlen _ (keys.get_mem i hik))
      refine ⟨keys.get ⟨i, hik⟩, (keys.get ⟨i, hik⟩).get ⟨j, hjrow⟩,
        List.get?_eq_get hik, List.get?_eq_get hjrow, ?_⟩
      rw [List.get?_map]
      have hri : (List.range (f0 :: rest).length).get? i = some i := by
        rw [List.get?_eq_getElem?]
        exact List.getElem?_range hi
      rw [hri]
      simp only [Option.map_some']
      rw [Nat.zero_add, keyBit_eq_get keys i j hik hjrow]

theorem reformat_info_aligned_witness :
    ∃ rv, reformat_info [[(("score"), PyVal.int 3)], [(("score"), PyVal.int 4)]]
        [[true], [false]] ("sub-01_task-a.bk2") [("B")] = Except.ok rv ∧
      (∀ k ∈ [("score")], ∃ l, dlookup rv k = some (DVal.seq l) ∧ l.length = 2) ∧
      (∀ j, (hj : j < 1) → ∃ l,
        dlookup rv (([("B")] : List String).get ⟨j, hj⟩) = some (DVal.seq l) ∧
        l.length = 2 ∧
        (∀ i, (hi : i < 2) → ∃ row b,
          ([[true], [false]] : List (List Bool)).get? i = some row ∧
          row.get? j = some b ∧ l.get? i = some (PyVal.bool b))) :=
  reformat_info_aligned [(("score"), PyVal.int 3)] [[(("score"), PyVal.int 4)]]
    [[true], [false]] ("sub-01_task-a.bk2") [("B")]
    (by decide) (by decide) (by decide) (by decide) (by decide) (by decide)

theorem replay_bk2_record_count_witness :
    (replay_bk2 demoMovie demoEmu false).length = demoMovie.steps.length ∧
    (replay_bk2 demoMovie demoEmu true).length = demoMovie.steps.length - 1 :=
  ⟨(replay_bk2_record_count demoMovie demoEmu).1,
   (replay_bk2_record_count demoMovie demoEmu).2.1⟩

theorem make_gif_webp_empty_noop_witness :
    make_gif ([] : List Nat) ("m.gif") = [MediaEvent.warnNoFrames ("m.gif")] :=
  (make_gif_webp_empty_noop ("m.gif")).1

theorem make_mp4_partial_audio_ignored_witness :
    make_mp4 ([7] : List Nat) ("clip.mp4") (some { isInt16 := true })
        Option.none 60 SubOutcome.binaryMissing initialVidWorld =
      (Except.ok (),
        { tempDirExists := false, tempVideoExists := false,
          tempAudioExists := false, finalExists := true,
          events := [VidEvent.mkdtemp, VidEvent.writeTempVideo 1 60,
            VidEvent.replaceTempVideoToFinal, VidEvent.rmdirTempDir] }) :=
  (make_mp4_partial_audio_ignored [7] ("clip.mp4") { isInt16 := true } 0 60
    SubOutcome.binaryMissing).1
